import Mathlib

/-
Verification development for the opencode supervisor/client library.

The repository has two generations of the supervisor:
  * `src/opencode.go`              — modelled below in namespace `Root`
  * `src/pkg/opencode/opencode.go` — modelled below in namespace `Pkg`

Pure computations (URL construction, SSE frame decoding, environment
variable expansion, config staging, readiness polling, the start/stop
state machine) are embedded as executable Lean functions.  External
effects (the OS port allocator, process spawning, signal delivery,
HTTP probes, the ambient environment) are passed in as explicit oracle
values, so each Go method becomes a pure state transformer.
-/

/- ===== JSON values, as produced by Go encoding/json ===== -/

/-- A JSON value.  Numbers keep their source numeral (Go decodes them to
float64; no claim here depends on numeric normalisation, so the literal
is preserved verbatim). -/
inductive Json where
  | null : Json
  | bool (b : Bool) : Json
  | num (lit : String) : Json
  | str (s : String) : Json
  | arr (elems : List Json) : Json
  | obj (members : List (String × Json)) : Json
deriving Repr

/-- JSON insignificant whitespace. -/
def isJsonWs (c : Char) : Bool :=
  c == ' ' || c == '\t' || c == '\n' || c == '\r'

/-- Drop leading JSON whitespace. -/
def skipWs : List Char → List Char
  | [] => []
  | c :: rest => if isJsonWs c then skipWs rest else c :: rest

/-- Value of a hexadecimal digit, by code point: 0-9, a-f, A-F. -/
def hexDigitVal (c : Char) : Option Nat :=
  let n := c.toNat
  if 48 ≤ n && n ≤ 57 then some (n - 48)
  else if 97 ≤ n && n ≤ 102 then some (n - 87)
  else if 65 ≤ n && n ≤ 70 then some (n - 55)
  else none

/-- Single-character JSON string escapes, by code point: the quote,
backslash and slash escape to themselves; b, f, n, r, t to backspace,
form feed, newline, carriage return and tab. -/
def escChar (c : Char) : Option Char :=
  match c.toNat with
  | 34 => some c
  | 92 => some c
  | 47 => some c
  | 98 => some (Char.ofNat 8)
  | 102 => some (Char.ofNat 12)
  | 110 => some (Char.ofNat 10)
  | 114 => some (Char.ofNat 13)
  | 116 => some (Char.ofNat 9)
  | _ => none

/-- Parse the body of a JSON string after the opening quote; returns the
decoded characters and the input after the closing quote.  (Surrogate-pair
recombination of consecutive backslash-u escapes is not modelled; no claim
exercises it.) -/
def parseStringChars : List Char → Option (List Char × List Char)
  | [] => none
  | '"' :: rest => some ([], rest)
  | '\\' :: rest =>
    match rest with
    | 'u' :: h1 :: h2 :: h3 :: h4 :: rest2 =>
      match hexDigitVal h1, hexDigitVal h2, hexDigitVal h3, hexDigitVal h4 with
      | some a, some b, some c, some d =>
        match parseStringChars rest2 with
        | some (s, r) => some (Char.ofNat (((a * 16 + b) * 16 + c) * 16 + d) :: s, r)
        | none => none
      | _, _, _, _ => none
    | e :: rest2 =>
      match escChar e with
      | some ch =>
        match parseStringChars rest2 with
        | some (s, r) => some (ch :: s, r)
        | none => none
      | none => none
    | [] => none
  | c :: rest =>
    match parseStringChars rest with
    | some (s, r) => some (c :: s, r)
    | none => none

/-- Take a maximal run of decimal digits. -/
def takeDigits : List Char → List Char × List Char
  | [] => ([], [])
  | c :: rest =>
    if c.isDigit then
      let (d, r) := takeDigits rest
      (c :: d, r)
    else ([], c :: rest)

/-- Parse a JSON number literal (sign, integer part, optional fraction and
exponent), returning its source characters and the rest of the input. -/
def parseNumberLit (s : List Char) : Option (List Char × List Char) :=
  let (sign, s1) :=
    match s with
    | '-' :: rest => (['-'], rest)
    | _ => (([] : List Char), s)
  match s1 with
  | [] => none
  | c :: rest =>
    if c == '0' then
      let (frac, r2) := parseFracExp rest
      some (sign ++ ['0'] ++ frac, r2)
    else if c.isDigit then
      let (ds, r1) := takeDigits rest
      let (frac, r2) := parseFracExp r1
      some (sign ++ (c :: ds) ++ frac, r2)
    else none
where
  parseFrac (s : List Char) : List Char × List Char :=
    match s with
    | '.' :: rest =>
      match takeDigits rest with
      | ([], _) => ([], '.' :: rest)
      | (ds, r) => ('.' :: ds, r)
    | _ => ([], s)
  parseExpPart (s : List Char) : List Char × List Char :=
    match s with
    | c :: rest =>
      if c == 'e' || c == 'E' then
        match rest with
        | sg :: rest2 =>
          if sg == '+' || sg == '-' then
            match takeDigits rest2 with
            | ([], _) => ([], c :: rest)
            | (ds, r) => (c :: sg :: ds, r)
          else
            match takeDigits rest with
            | ([], _) => ([], c :: rest)
            | (ds, r) => (c :: ds, r)
        | [] => ([], [c])
      else ([], c :: rest)
    | [] => ([], [])
  parseFracExp (s : List Char) : List Char × List Char :=
    let (f, r1) := parseFrac s
    let (e, r2) := parseExpPart r1
    (f ++ e, r2)

mutual
/-- Parse one JSON value.  `fuel` bounds recursion depth; `parseJson`
supplies more than enough for any input of the given length. -/
def parseValue : Nat → List Char → Option (Json × List Char)
  | 0, _ => none
  | fuel + 1, s =>
    match skipWs s with
    | [] => none
    | c :: rest =>
      if c == 'n' then
        match rest with
        | 'u' :: 'l' :: 'l' :: r => some (Json.null, r)
        | _ => none
      else if c == 't' then
        match rest with
        | 'r' :: 'u' :: 'e' :: r => some (Json.bool true, r)
        | _ => none
      else if c == 'f' then
        match rest with
        | 'a' :: 'l' :: 's' :: 'e' :: r => some (Json.bool false, r)
        | _ => none
      else if c == '"' then
        match parseStringChars rest with
        | some (cs, r) => some (Json.str (String.mk cs), r)
        | none => none
      else if c == '[' then
        match skipWs rest with
        | ']' :: r => some (Json.arr [], r)
        | r2 =>
          match parseElems fuel r2 with
          | some (es, r) => some (Json.arr es, r)
          | none => none
      else if c == '{' then
        match skipWs rest with
        | '}' :: r => some (Json.obj [], r)
        | r2 =>
          match parseMembers fuel r2 with
          | some (ms, r) => some (Json.obj ms, r)
          | none => none
      else
        match parseNumberLit (c :: rest) with
        | some (lit, r) => some (Json.num (String.mk lit), r)
        | none => none

/-- Parse the elements of a non-empty JSON array, up to and including the
closing bracket. -/
def parseElems : Nat → List Char → Option (List Json × List Char)
  | 0, _ => none
  | fuel + 1, s =>
    match parseValue fuel s with
    | none => none
    | some (v, r) =>
      match skipWs r with
      | ',' :: r2 =>
        match parseElems fuel r2 with
        | some (vs, r3) => some (v :: vs, r3)
        | none => none
      | ']' :: r2 => some ([v], r2)
      | _ => none

/-- Parse the members of a non-empty JSON object, up to and including the
closing brace. -/
def parseMembers : Nat → List Char → Option (List (String × Json) × List Char)
  | 0, _ => none
  | fuel + 1, s =>
    match skipWs s with
    | '"' :: rest =>
      match parseStringChars rest with
      | none => none
      | some (k, r) =>
        match skipWs r with
        | ':' :: r2 =>
          match parseValue fuel r2 with
          | none => none
          | some (v, r3) =>
            match skipWs r3 with
            | ',' :: r4 =>
              match parseMembers fuel r4 with
              | some (ms, r5) => some ((String.mk k, v) :: ms, r5)
              | none => none
            | '}' :: r4 => some ([(String.mk k, v)], r4)
            | _ => none
        | _ => none
    | _ => none
end

/-- Parse a complete JSON document: one value, with only whitespace after
it, as `encoding/json.Unmarshal` requires. -/
def parseJson (s : String) : Option Json :=
  let cs := s.toList
  match parseValue (4 * cs.length + 4) cs with
  | some (v, r) => if skipWs r = [] then some v else none
  | none => none

/- ===== SSE event envelope decoding (pkg/opencode StreamEvents) ===== -/

/-- A decoded stream event: the envelope that `StreamEvents` passes to the
callback.  `type_` is the frame tag (Go field `Type`); `properties` is the
raw properties payload (Go field `Properties`, a `map[string]interface`
value that is nil — here `none` — when the frame carried none). -/
structure Event where
  type_ : String
  properties : Option Json
deriving Repr

/-- ASCII lower-casing, for case-insensitive JSON key matching as done by
`encoding/json` when it pairs object keys with struct fields. -/
def asciiLower (c : Char) : Char :=
  if 'A' ≤ c && c ≤ 'Z' then Char.ofNat (c.toNat + 32) else c

/-- Case-insensitive string comparison (ASCII). -/
def lowerEq (a b : String) : Bool :=
  a.toList.map asciiLower == b.toList.map asciiLower

/-- Assign one JSON object member to the envelope struct, following
`encoding/json`: a member whose key matches `Type` must be a string, a
member matching `Properties` must be an object, `null` leaves the field
untouched, any other key is ignored, and a type mismatch makes the whole
unmarshal fail (which the stream loop treats as a skip). -/
def setField (e : Event) (k : String) (v : Json) : Option Event :=
  if lowerEq k "type" then
    match v with
    | Json.str s => some { e with type_ := s }
    | Json.null => some e
    | _ => none
  else if lowerEq k "properties" then
    match v with
    | Json.obj _ => some { e with properties := some v }
    | Json.null => some e
    | _ => none
  else some e

/-- Fold the members of the envelope object, in order (later duplicates
overwrite earlier ones, as in Go). -/
def applyFields : Event → List (String × Json) → Option Event
  | e, [] => some e
  | e, (k, v) :: rest =>
    match setField e k v with
    | some e2 => applyFields e2 rest
    | none => none

/-- Model of `json.Unmarshal(data, &event)` for the two-field envelope
struct: the document must be a JSON object (or `null`, which leaves the
zero value). -/
def unmarshalEnvelope (data : String) : Option Event :=
  match parseJson data with
  | some (Json.obj kvs) => applyFields { type_ := "", properties := none } kvs
  | some Json.null => some { type_ := "", properties := none }
  | some _ => none
  | none => none

/-- Model of `strings.HasPrefix` over character lists. -/
def hasPrefixChars : List Char → List Char → Bool
  | _, [] => true
  | [], _ :: _ => false
  | c :: s, p :: ps => c == p && hasPrefixChars s ps

/-- Model of `strings.HasPrefix`. -/
def hasPrefixStr (s p : String) : Bool :=
  hasPrefixChars s.toList p.toList

/-- Model of `strings.TrimPrefix`. -/
def trimPrefixStr (s p : String) : String :=
  if hasPrefixStr s p then String.mk (s.toList.drop p.toList.length) else s

/-- The SSE data payload marker checked by the stream loop. -/
def dataMarker : String := "data: "

/-- Processing of a single scanned line by the `StreamEvents` loop: lines
without the data marker are ignored; marked lines are stripped and
unmarshalled; an unmarshal error skips the frame (the loop continues). -/
def processLine (line : String) : Option Event :=
  if hasPrefixStr line dataMarker then
    unmarshalEnvelope (trimPrefixStr line dataMarker)
  else none

/-- The events delivered to the callback, in stream arrival order, for a
given sequence of scanned lines. -/
def scanEvents : List String → List Event
  | [] => []
  | l :: rest =>
    match processLine l with
    | some e => e :: scanEvents rest
    | none => scanEvents rest

/-- The read-buffer ceiling `StreamEvents` installs on its scanner
(`maxScanTokenSize`, 1 MiB). -/
def maxScanTokenSize : Nat := 1024 * 1024

/-- The scanner stage: lines are yielded until the end of input or until a
line exceeds the buffer ceiling, which is a stream-fatal scanner error.
(Line length is counted in characters; the Go scanner counts bytes — the
claims only exercise ASCII input, where the two agree.) -/
def scanStage : List String → List String × Option String
  | [] => ([], none)
  | l :: rest =>
    if l.length > maxScanTokenSize then ([], some "bufio.Scanner: token too long")
    else
      let (ls, e) := scanStage rest
      (l :: ls, e)

/-- Model of `StreamEvents` as a whole: `rawLines` is the line-split input
stream and `readErr` an underlying transport error surfaced by
`scanner.Err()` after those lines (none for clean end of stream).  Returns
the events delivered to the callback and the value returned to the
caller. -/
def streamEvents (rawLines : List String) (readErr : Option String) :
    List Event × Except String Unit :=
  let (ls, scanErr) := scanStage rawLines
  (scanEvents ls,
    match scanErr with
    | some e => Except.error e
    | none =>
      match readErr with
      | some e => Except.error e
      | none => Except.ok ())

/- ===== Environment variable expansion (os.ExpandEnv) ===== -/

/-- Go `os.isShellSpecialVar`. -/
def isShellSpecialVar (c : Char) : Bool :=
  c == '*' || c == '#' || c == '$' || c == '@' || c == '!' || c == '?' ||
    ('0' ≤ c && c ≤ '9')

/-- Go `os.isAlphaNum`: underscore, digit or ASCII letter. -/
def isAlphaNum (c : Char) : Bool :=
  c == '_' || ('0' ≤ c && c ≤ '9') || ('a' ≤ c && c ≤ 'z') || ('A' ≤ c && c ≤ 'Z')

/-- Index of the first closing brace, if any. -/
def indexOfClose : List Char → Option Nat
  | [] => none
  | '}' :: _ => some 0
  | _ :: rest =>
    match indexOfClose rest with
    | some j => some (j + 1)
    | none => none

/-- Go `os.getShellName` applied to the text after a dollar sign: returns
the referenced name and the number of characters consumed. -/
def getShellName (s : List Char) : String × Nat :=
  match s with
  | [] => ("", 0)
  | '{' :: rest =>
    match indexOfClose rest with
    | some 0 => ("", 2)
    | some j => (String.mk (rest.take j), j + 2)
    | none => ("", 1)
  | c :: _ =>
    if isShellSpecialVar c then (String.mk [c], 1)
    else
      let name := s.takeWhile isAlphaNum
      (String.mk name, name.length)

/-- Go `os.Expand` over characters.  `fuel` bounds the recursion; every
step consumes at least one input character, so `length + 1` suffices. -/
def expandChars (mapping : String → String) : Nat → List Char → List Char
  | 0, _ => []
  | _ + 1, [] => []
  | fuel + 1, c :: rest =>
    if c == '$' && !rest.isEmpty then
      let (name, w) := getShellName rest
      if name == "" && w > 0 then
        expandChars mapping fuel (rest.drop w)
      else if name == "" then
        '$' :: expandChars mapping fuel rest
      else
        (mapping name).toList ++ expandChars mapping fuel (rest.drop w)
    else c :: expandChars mapping fuel rest

/-- Go `os.ExpandEnv`, with the ambient environment passed explicitly as
`mapping` (unset variables map to the empty string, as `os.Getenv`). -/
def expandEnv (mapping : String → String) (s : String) : String :=
  String.mk (expandChars mapping (s.toList.length + 1) s.toList)

/- ===== Virtual file sets and config staging (src/opencode.go) ===== -/

/-- A leaf file of the virtual config file set (`fs.FS`), as enumerated by
`fs.WalkDir`: a clean relative path and its content. -/
structure VFile where
  path : String
  content : String
deriving DecidableEq, Repr

/-- A file written to disk during staging. -/
structure StagedFile where
  destPath : String
  content : String
deriving DecidableEq, Repr

/-- The body of the `fs.WalkDir` loop in `Start`: the content of each leaf
file is expanded against the ambient environment with `os.ExpandEnv` and
written to `filepath.Join(configDir, path)` (paths from `WalkDir` are
clean and relative, so the join is plain concatenation with a slash),
after creating parent directories. -/
def stageConfigFS (configDir : String) (getenv : String → String)
    (files : List VFile) : List StagedFile :=
  files.map fun f =>
    { destPath := configDir ++ "/" ++ f.path,
      content := expandEnv getenv f.content }

/- ===== Common process model ===== -/

/-- A spawned child process handle (`exec.Cmd.Process`). -/
structure Proc where
  pid : Nat
deriving DecidableEq, Repr

/- ===== The pkg/opencode/opencode.go supervisor and client ===== -/

namespace Pkg

/-- Configuration (`pkg/opencode.Config`). -/
structure Config where
  ConfigDir : String
  Addr : String
  APIKey : String
deriving DecidableEq, Repr

/-- An `exec.Cmd` after construction: its argument vector, environment,
and the process handle (`nil` — here `none` — until a successful
spawn). -/
structure Cmd where
  args : List String
  env : List String
  process : Option Proc
deriving DecidableEq, Repr

/-- Supervised instance state (`pkg/opencode.OpenCode`): the configuration
and the recorded child command, mutated only by `Start`/`Stop` (which the
source serialises under `oc.mu`; the claims here are about the sequential
state transitions, so the lock itself is not modelled). -/
structure OpenCode where
  config : Config
  cmd : Option Cmd
deriving DecidableEq, Repr

/-- Constructor `New`. -/
def New (cfg : Config) : OpenCode :=
  { config := cfg, cmd := none }

/-- The already-running test `oc.cmd != nil && oc.cmd.Process != nil`. -/
def liveHandle (oc : OpenCode) : Bool :=
  match oc.cmd with
  | some c => c.process.isSome
  | none => false

/-- Outcomes of the external effects `Start` performs, passed as an
oracle: the bind-probe-release port allocation, the ambient environment,
the spawn, and whether the child is still alive when probed with signal 0
after the 500 ms grace sleep. -/
structure StartEnv where
  portAlloc : Option Nat
  environ : List String
  getenv : String → String
  spawnOk : Bool
  pid : Nat
  childAliveAfterGrace : Bool

/-- Model of `Start`.  Follows the source line by line: the
already-running check; port allocation (the address is assigned from the
allocated port); the child argument vector; the child environment
(ambient, plus isolation variables when an effective config directory is
set, plus the API key when configured); recording `oc.cmd`; the spawn;
then the grace delay and the signal-0 liveness probe.  `os.FindProcess`
never fails on Unix, so only the probe branch is modelled; the background
reaper goroutine is observational only and touches no state. -/
def start (ev : StartEnv) (oc : OpenCode) : Except String Unit × OpenCode :=
  if liveHandle oc then (Except.error "opencode is already running", oc)
  else
    match ev.portAlloc with
    | none => (Except.error "failed to get free port", oc)
    | some port =>
      let oc1 : OpenCode :=
        { oc with config := { oc.config with Addr := "127.0.0.1:" ++ toString port } }
      let args := ["serve", "--hostname", "127.0.0.1", "--port", toString port]
      let configDir :=
        if oc1.config.ConfigDir == "" then ev.getenv "OPENCODE_CONFIG_DIR"
        else oc1.config.ConfigDir
      let env1 :=
        if configDir == "" then ev.environ
        else ev.environ ++
          ["HOME=" ++ configDir, "XDG_CONFIG_HOME=" ++ configDir,
            "OPENCODE_CONFIG_DIR=" ++ configDir]
      let env2 :=
        if oc1.config.APIKey == "" then env1
        else env1 ++ ["OPENCODE_API_KEY=" ++ oc1.config.APIKey]
      let oc2 : OpenCode :=
        { oc1 with cmd := some { args := args, env := env2, process := none } }
      if ev.spawnOk then
        let oc3 : OpenCode :=
          { oc1 with cmd := some { args := args, env := env2, process := some { pid := ev.pid } } }
        if ev.childAliveAfterGrace then (Except.ok (), oc3)
        else (Except.error "opencode process failed to start", oc3)
      else (Except.error "failed to start opencode", oc2)

/-- Model of `Stop`.  `killOk` is the outcome of `Process.Kill` when a
live handle exists (signal delivery). -/
def stop (killOk : Bool) (oc : OpenCode) : Except String Unit × OpenCode :=
  match oc.cmd with
  | none => (Except.ok (), oc)
  | some c =>
    match c.process with
    | none => (Except.ok (), oc)
    | some _ =>
      if killOk then (Except.ok (), { oc with cmd := none })
      else (Except.error "failed to stop opencode", oc)

/-- Accessor `Addr()`. -/
def Addr (oc : OpenCode) : String :=
  oc.config.Addr

/-- The fixed health URL polled by `WaitForReady`. -/
def healthURL (addr : String) : String :=
  "http://" ++ addr ++ "/global/health"

/-- The polling loop of `WaitForReady`: `probe url i` is true when the
GET of attempt `i` (0-based) returns without transport error (any HTTP
status counts as ready; the body is discarded).  Returns the 1-based
number of the successful attempt, or `none` when the budget `remaining`
is exhausted.  The fixed 500 ms sleep between attempts is real time and
not part of the state. -/
def waitLoop (probe : String → Nat → Bool) (addr : String) :
    Nat → Nat → Option Nat
  | _, 0 => none
  | i, remaining + 1 =>
    if probe (healthURL addr) i then some (i + 1)
    else waitLoop probe addr (i + 1) remaining

/-- Model of `WaitForReady(maxAttempts)`: the result, paired with the
number of polling attempts performed. -/
def waitForReady (probe : String → Nat → Bool) (addr : String)
    (maxAttempts : Nat) : Except String Unit × Nat :=
  match waitLoop probe addr 0 maxAttempts with
  | some attempts => (Except.ok (), attempts)
  | none =>
    (Except.error ("OpenCode not ready after " ++ toString maxAttempts ++ " attempts"),
      maxAttempts)

/-- Model of `getURL`. -/
def getURL (addr path : String) : String :=
  if addr == "" then "" else "http://" ++ addr ++ path

/-- An HTTP request as assembled by the client methods before it is sent.
Query parameters are recorded as key/value pairs (the source
percent-encodes them with `q.Encode()` at send time). -/
structure Request where
  method : String
  url : String
  query : List (String × String)
  headers : List (String × String)
  body : Option Json
deriving Repr

/-- The directory scoping block shared verbatim by `ListSessions`,
`CreateSession`, `SendMessage` and `StreamEvents`: the configured
`ConfigDir`, falling back to the ambient `OPENCODE_CONFIG_DIR` when
empty; the `directory` parameter is added only when the result is
non-empty. -/
def dirQuery (cfg : Config) (getenv : String → String) : List (String × String) :=
  let configDir :=
    if cfg.ConfigDir == "" then getenv "OPENCODE_CONFIG_DIR" else cfg.ConfigDir
  if configDir == "" then [] else [("directory", configDir)]

/-- The request assembled by `ListSessions`. -/
def listSessionsRequest (cfg : Config) (getenv : String → String) : Request :=
  { method := "GET", url := getURL cfg.Addr "/session",
    query := dirQuery cfg getenv, headers := [], body := none }

/-- The request assembled by `CreateSession(title)`. -/
def createSessionRequest (cfg : Config) (getenv : String → String)
    (title : String) : Request :=
  { method := "POST", url := getURL cfg.Addr "/session",
    query := dirQuery cfg getenv,
    headers := [("Content-Type", "application/json")],
    body := some (Json.obj [("title", Json.str title)]) }

/-- The request assembled by `SendMessage(sessionID, text)`. -/
def sendMessageRequest (cfg : Config) (getenv : String → String)
    (sessionID text : String) : Request :=
  { method := "POST",
    url := getURL cfg.Addr ("/session/" ++ sessionID ++ "/message"),
    query := dirQuery cfg getenv,
    headers := [("Content-Type", "application/json")],
    body := some (Json.obj
      [("parts", Json.arr [Json.obj [("type", Json.str "text"), ("text", Json.str text)]])]) }

/-- The request assembled by `StreamEvents`. -/
def streamEventsRequest (cfg : Config) (getenv : String → String) : Request :=
  { method := "GET", url := getURL cfg.Addr "/event",
    query := dirQuery cfg getenv, headers := [], body := none }

end Pkg

/- ===== The src/opencode.go supervisor ===== -/

namespace Root

/-- Configuration (`opencode.Config`): the address, the optional virtual
config file set (`ConfigFS fs.FS`, `none` when nil), and the working
directory for the child. -/
structure Config where
  Addr : String
  ConfigFS : Option (List VFile)
  CWD : String
deriving DecidableEq, Repr

/-- An `exec.Cmd` after construction. -/
structure Cmd where
  args : List String
  env : List String
  dir : Option String
  process : Option Proc
deriving DecidableEq, Repr

/-- Supervised instance state (`opencode.OpenCode`): configuration, the
recorded child command, and the resolved staged config directory
(`configDir`, empty when none was staged). -/
structure OpenCode where
  config : Config
  cmd : Option Cmd
  configDir : String
deriving DecidableEq, Repr

/-- Constructor `New`. -/
def New (cfg : Config) : OpenCode :=
  { config := cfg, cmd := none, configDir := "" }

/-- The already-running test `oc.cmd != nil && oc.cmd.Process != nil`. -/
def liveHandle (oc : OpenCode) : Bool :=
  match oc.cmd with
  | some c => c.process.isSome
  | none => false

/-- Outcomes of the external effects this `Start` performs: port
allocation, the random hex suffix for the staging root (`none` when
`rand.Read` fails), directory creation, the staging walk (aggregating the
per-file read/write outcomes), the ambient environment, the spawn, and
whether the child is in fact still alive shortly after the spawn — this
variant of `Start` never checks the latter. -/
structure StartEnv where
  portAlloc : Option Nat
  randHex : Option String
  mkdirOk : Bool
  walkOk : Bool
  environ : List String
  getenv : String → String
  spawnOk : Bool
  pid : Nat
  childAlive : Bool

/-- The tail of `Start` after optional staging: argument vector, child
environment (ambient, plus `OPENCODE_CONFIG`/`OPENCODE_CONFIG_DIR` when a
config directory was staged), working directory, recording `oc.cmd`, and
the spawn.  It returns success immediately after a successful spawn: there
is no grace delay and no liveness probe in this variant. -/
def spawnPhase (ev : StartEnv) (port : Nat) (oc : OpenCode)
    (writes : List StagedFile) :
    Except String Unit × OpenCode × List StagedFile :=
  let args := ["serve", "--hostname", "127.0.0.1", "--port", toString port]
  let env1 :=
    if oc.configDir == "" then ev.environ
    else ev.environ ++
      ["OPENCODE_CONFIG=" ++ oc.configDir ++ "/config.json",
        "OPENCODE_CONFIG_DIR=" ++ oc.configDir]
  let dir := if oc.config.CWD == "" then none else some oc.config.CWD
  let oc1 : OpenCode :=
    { oc with cmd := some { args := args, env := env1, dir := dir, process := none } }
  if ev.spawnOk then
    (Except.ok (),
      { oc with cmd := some { args := args, env := env1, dir := dir, process := some { pid := ev.pid } } },
      writes)
  else (Except.error "failed to start opencode", oc1, writes)

/-- Model of the root variant of `Start`: the already-running check; port
allocation, unconditionally assigning the address; when a virtual config
file set is configured, creation of a fresh uniquely named staging root
under /tmp and the staging walk (whose per-file writes are returned);
then the spawn phase.  Mid-way failures return the partially mutated
state, exactly as the source mutates `oc` in place. -/
def start (ev : StartEnv) (oc : OpenCode) :
    Except String Unit × OpenCode × List StagedFile :=
  if liveHandle oc then (Except.error "opencode is already running", oc, [])
  else
    match ev.portAlloc with
    | none => (Except.error "failed to get free port", oc, [])
    | some port =>
      let oc1 : OpenCode :=
        { oc with config := { oc.config with Addr := "127.0.0.1:" ++ toString port } }
      match oc1.config.ConfigFS with
      | some files =>
        match ev.randHex with
        | none => (Except.error "failed to generate random hash", oc1, [])
        | some hash =>
          let oc2 : OpenCode := { oc1 with configDir := "/tmp/opencode_" ++ hash }
          if ev.mkdirOk then
            if ev.walkOk then
              spawnPhase ev port oc2 (stageConfigFS oc2.configDir ev.getenv files)
            else (Except.error "failed to walk config fs", oc2, [])
          else (Except.error "failed to create config directory", oc2, [])
      | none => spawnPhase ev port oc1 []

/-- Model of `Stop` (identical to the pkg variant). -/
def stop (killOk : Bool) (oc : OpenCode) : Except String Unit × OpenCode :=
  match oc.cmd with
  | none => (Except.ok (), oc)
  | some c =>
    match c.process with
    | none => (Except.ok (), oc)
    | some _ =>
      if killOk then (Except.ok (), { oc with cmd := none })
      else (Except.error "failed to stop opencode", oc)

/-- Accessor `Addr()`. -/
def Addr (oc : OpenCode) : String :=
  oc.config.Addr

end Root

/- ===== Concrete scenarios used by counterexamples and witnesses ===== -/

/-- A configuration whose address is non-empty at construction. -/
def c1Cfg : Pkg.Config :=
  { ConfigDir := "", Addr := "localhost:8080", APIKey := "" }

/-- A fully successful run of the external effects of `Pkg.start`:
port 4096 allocated, spawn succeeds, child alive after the grace delay. -/
def c1Ev : Pkg.StartEnv :=
  { portAlloc := some 4096, environ := [], getenv := fun _ => "",
    spawnOk := true, pid := 7, childAliveAfterGrace := true }

/-- An empty configuration. -/
def c2Cfg : Pkg.Config :=
  { ConfigDir := "", Addr := "", APIKey := "" }

/-- A run where the spawn succeeds but the child has already exited when
the liveness probe runs. -/
def c2Ev : Pkg.StartEnv :=
  { portAlloc := some 4096, environ := [], getenv := fun _ => "",
    spawnOk := true, pid := 7, childAliveAfterGrace := false }

/-- A port-allocation failure. -/
def c2EvNoPort : Pkg.StartEnv :=
  { portAlloc := none, environ := [], getenv := fun _ => "",
    spawnOk := true, pid := 7, childAliveAfterGrace := true }

/-- A run of the root supervisor where the spawn succeeds but the child
crashes immediately (`childAlive := false`); this `Start` never looks at
that outcome. -/
def c3Ev : Root.StartEnv :=
  { portAlloc := some 4096, randHex := none, mkdirOk := true, walkOk := true,
    environ := [], getenv := fun _ => "", spawnOk := true, pid := 7,
    childAlive := false }

/-- A root configuration with no virtual config file set. -/
def c3Cfg : Root.Config :=
  { Addr := "", ConfigFS := none, CWD := "" }

/- ===== Theorems ===== -/

/-- C9: URL construction with non-empty address "localhost:8080" and path
"/session" yields "http://localhost:8080/session", and with an empty
configured address yields the empty string for any path. -/
theorem c9_getURL (path : String) :
    Pkg.getURL "localhost:8080" "/session" = "http://localhost:8080/session" ∧
    Pkg.getURL "" path = "" := by
  exact ⟨rfl, rfl⟩

/-- C4: decoding a stream data frame whose envelope carries an
unrecognized type tag yields the fallback event whose type equals the
tag of the frame and whose properties equal the raw properties of the
frame, unmodified: concretely for the frame from the spec, and generally for an
envelope object with any tag string and any properties object. -/
theorem c4_unknown_tag_fallback (tag : String) (props : List (String × Json)) :
    processLine "data: \x7b\x22type\x22:\x22some.future.kind\x22,\x22properties\x22:\x7b\x22x\x22:1\x7d\x7d"
      = some { type_ := "some.future.kind",
               properties := some (Json.obj [("x", Json.num "1")]) } ∧
    applyFields { type_ := "", properties := none }
        [("type", Json.str tag), ("properties", Json.obj props)]
      = some { type_ := tag, properties := some (Json.obj props) } := by
  exact ⟨rfl, rfl⟩

/-- The callback dispatch distributes over concatenation of scanned
lines. -/
theorem scanEvents_append (a b : List String) :
    scanEvents (a ++ b) = scanEvents a ++ scanEvents b := by
  induction a with
  | nil => rfl
  | cons l rest ih =>
    simp only [List.cons_append, scanEvents]
    cases processLine l <;> simp [ih]

/-- When every line fits the read buffer, the scanner yields all lines and
reports no error. -/
theorem scanStage_ok (ls : List String)
    (h : ∀ l ∈ ls, l.length ≤ maxScanTokenSize) :
    scanStage ls = (ls, none) := by
  induction ls with
  | nil => rfl
  | cons l rest ih =>
    have hl : ¬ l.length > maxScanTokenSize := Nat.not_lt.mpr (h l (by simp))
    have hr : scanStage rest = (rest, none) :=
      ih fun x hx => h x (by simp [hx])
    simp [scanStage, hl, hr]

/-- C5: for every input stream containing a malformed data frame (a line
with the data-payload marker whose remainder is not valid JSON), the
stream reader skips that frame and continues: the malformed frame is not
surfaced to the caller as an error, and every well-formed subsequent
frame is still decoded and delivered to the callback in arrival order. -/
theorem c5_malformed_frame_skipped (pre post : List String) (bad : String)
    (hmark : hasPrefixStr bad dataMarker = true)
    (hjson : parseJson (trimPrefixStr bad dataMarker) = none)
    (hsize : ∀ l ∈ pre ++ bad :: post, l.length ≤ maxScanTokenSize) :
    streamEvents (pre ++ bad :: post) none
      = (scanEvents pre ++ scanEvents post, Except.ok ()) := by
  have hbad : processLine bad = none := by
    simp [processLine, hmark, unmarshalEnvelope, hjson]
  have hscan := scanStage_ok _ hsize
  simp [streamEvents, hscan, scanEvents_append, scanEvents, hbad]

/-- C5 witness: a concrete stream with one malformed frame between two
well-formed ones (and one non-data line): both well-formed frames are
delivered and the read ends in success. -/
theorem c5_witness :
    streamEvents (["data: \x7b\x22type\x22:\x22a\x22\x7d"] ++
        "data: \x7bnot json" ::
        ["event: x", "data: \x7b\x22type\x22:\x22b\x22\x7d"]) none
      = ([{ type_ := "a", properties := none },
          { type_ := "b", properties := none }], Except.ok ()) := by
  have h := c5_malformed_frame_skipped
      ["data: \x7b\x22type\x22:\x22a\x22\x7d"]
      ["event: x", "data: \x7b\x22type\x22:\x22b\x22\x7d"]
      "data: \x7bnot json" rfl rfl (by decide)
  exact h.trans rfl

/-- Unfolding step for the polling loop. -/
theorem waitLoop_succStep (probe : String → Nat → Bool) (addr : String)
    (i r : Nat) :
    Pkg.waitLoop probe addr i (r + 1)
      = if probe (Pkg.healthURL addr) i then some (i + 1)
        else Pkg.waitLoop probe addr (i + 1) r := rfl

/-- C7: WaitForReady polls the fixed health path until a
non-transport-error response or budget exhaustion: when the first two
probes fail and the third succeeds it returns success after exactly 3
attempts; when every attempt fails it reports not-ready after exactly
maxAttempts attempts; and the number of attempts never exceeds the
configured maximum. -/
theorem c7_waitForReady (probe : String → Nat → Bool) (addr : String) (m : Nat) :
    (probe (Pkg.healthURL addr) 0 = false → probe (Pkg.healthURL addr) 1 = false →
      probe (Pkg.healthURL addr) 2 = true → 3 ≤ m →
      Pkg.waitForReady probe addr m = (Except.ok (), 3)) ∧
    ((∀ i, probe (Pkg.healthURL addr) i = false) →
      Pkg.waitForReady probe addr m
        = (Except.error ("OpenCode not ready after " ++ toString m ++ " attempts"), m)) ∧
    (Pkg.waitForReady probe addr m).2 ≤ m := by
  refine ⟨?_, ?_, ?_⟩
  · intro h0 h1 h2 hm
    obtain ⟨k, rfl⟩ : ∃ k, m = k + 3 := ⟨m - 3, by omega⟩
    have e1 : Pkg.waitLoop probe addr 0 (k + 3) = Pkg.waitLoop probe addr 1 (k + 2) := by
      rw [show k + 3 = (k + 2) + 1 by omega, waitLoop_succStep]
      simp [h0]
    have e2 : Pkg.waitLoop probe addr 1 (k + 2) = Pkg.waitLoop probe addr 2 (k + 1) := by
      rw [show k + 2 = (k + 1) + 1 by omega, waitLoop_succStep]
      simp [h1]
    have e3 : Pkg.waitLoop probe addr 2 (k + 1) = some 3 := by
      rw [waitLoop_succStep]
      simp [h2]
    simp [Pkg.waitForReady, e1, e2, e3]
  · intro hfail
    have hall : ∀ r i, Pkg.waitLoop probe addr i r = none := by
      intro r
      induction r with
      | zero => intro i; rfl
      | succ n ih =>
        intro i
        rw [waitLoop_succStep]
        simp [hfail i, ih]
    simp [Pkg.waitForReady, hall]
  · have hbound : ∀ r i a, Pkg.waitLoop probe addr i r = some a → a ≤ i + r := by
      intro r
      induction r with
      | zero => intro i a h; exact absurd h (by simp [Pkg.waitLoop])
      | succ n ih =>
        intro i a h
        rw [waitLoop_succStep] at h
        by_cases hp : probe (Pkg.healthURL addr) i = true
        · rw [if_pos hp] at h
          injection h with h
          omega
        · rw [if_neg hp] at h
          have := ih (i + 1) a h
          omega
    rcases hcase : Pkg.waitLoop probe addr 0 m with _ | a
    · simp [Pkg.waitForReady, hcase]
    · have := hbound m 0 a hcase
      simp [Pkg.waitForReady, hcase]
      omega

/-- C7 witness: against a probe that succeeds exactly on the third attempt
with a budget of 5, readiness is reported after exactly 3 attempts; a
probe that always fails exhausts a budget of 4. -/
theorem c7_witness :
    Pkg.waitForReady (fun _ i => i == 2) "localhost:9" 5 = (Except.ok (), 3) ∧
    Pkg.waitForReady (fun _ _ => false) "localhost:9" 4
      = (Except.error ("OpenCode not ready after " ++ toString 4 ++ " attempts"), 4) := by
  constructor
  · exact (c7_waitForReady (fun _ i => i == 2) "localhost:9" 5).1 rfl rfl rfl (by omega)
  · exact (c7_waitForReady (fun _ _ => false) "localhost:9" 4).2.1 (fun i => rfl)

/-- C6: Stop is idempotent.  On an instance holding no live child handle
(never started, or already stopped) it returns success with no side
effects, for either supervisor variant; and calling Stop twice in a row
on any instance returns success both times (modelling the delivery of the
kill signal as succeeding when a live process is present — the source
returns its stop-failed error instead only when `Process.Kill` itself
errors). -/
theorem c6_stop_idempotent (ocp : Pkg.OpenCode) (ocr : Root.OpenCode) (k k2 : Bool) :
    (Pkg.liveHandle ocp = false → Pkg.stop k ocp = (Except.ok (), ocp)) ∧
    (Pkg.stop true ocp).1 = Except.ok () ∧
    (Pkg.stop k2 (Pkg.stop true ocp).2).1 = Except.ok () ∧
    (Root.liveHandle ocr = false → Root.stop k ocr = (Except.ok (), ocr)) ∧
    (Root.stop true ocr).1 = Except.ok () ∧
    (Root.stop k2 (Root.stop true ocr).2).1 = Except.ok () := by
  obtain ⟨cfgp, cmdp⟩ := ocp
  obtain ⟨cfgr, cmdr, dirr⟩ := ocr
  refine ⟨?_, ?_, ?_, ?_, ?_, ?_⟩
  · intro h
    match cmdp with
    | none => rfl
    | some c =>
      match hc : c.process with
      | none => simp [Pkg.stop, hc]
      | some p => simp [Pkg.liveHandle, hc] at h
  · match cmdp with
    | none => rfl
    | some c =>
      match hc : c.process with
      | none => simp [Pkg.stop, hc]
      | some p => simp [Pkg.stop, hc]
  · match cmdp with
    | none => rfl
    | some c =>
      match hc : c.process with
      | none => simp [Pkg.stop, hc]
      | some p => simp [Pkg.stop, hc]
  · intro h
    match cmdr with
    | none => rfl
    | some c =>
      match hc : c.process with
      | none => simp [Root.stop, hc]
      | some p => simp [Root.liveHandle, hc] at h
  · match cmdr with
    | none => rfl
    | some c =>
      match hc : c.process with
      | none => simp [Root.stop, hc]
      | some p => simp [Root.stop, hc]
  · match cmdr with
    | none => rfl
    | some c =>
      match hc : c.process with
      | none => simp [Root.stop, hc]
      | some p => simp [Root.stop, hc]

/-- C6 witness: stopping a never-started instance of each variant
succeeds and changes nothing, and two successive stops both succeed. -/
theorem c6_witness :
    Pkg.stop false (Pkg.New c2Cfg) = (Except.ok (), Pkg.New c2Cfg) ∧
    (Pkg.stop false (Pkg.stop true (Pkg.New c2Cfg)).2).1 = Except.ok () ∧
    Root.stop false (Root.New c3Cfg) = (Except.ok (), Root.New c3Cfg) := by
  refine ⟨?_, ?_, ?_⟩
  · exact (c6_stop_idempotent (Pkg.New c2Cfg) (Root.New c3Cfg) false false).1 rfl
  · exact (c6_stop_idempotent (Pkg.New c2Cfg) (Root.New c3Cfg) false false).2.2.1
  · exact (c6_stop_idempotent (Pkg.New c2Cfg) (Root.New c3Cfg) false false).2.2.2.1 rfl

/-- C1 counterexample: a configuration constructed with the non-empty
address "localhost:8080", after a fully successful Start, reports the
freshly allocated loopback address instead of the originally configured
one — Start overwrites the address unconditionally. -/
theorem c1_counterexample :
    Pkg.Addr (Pkg.New c1Cfg) = "localhost:8080" ∧
    (Pkg.start c1Ev (Pkg.New c1Cfg)).1 = Except.ok () ∧
    Pkg.Addr (Pkg.start c1Ev (Pkg.New c1Cfg)).2 = "127.0.0.1:4096" ∧
    Pkg.Addr (Pkg.start c1Ev (Pkg.New c1Cfg)).2 ≠ "localhost:8080" := by
  refine ⟨rfl, rfl, rfl, ?_⟩
  decide

/-- C1 amended: in both supervisor variants, whenever Start is not
rejected as already running and port allocation yields a port, Start
assigns the freshly allocated loopback address unconditionally —
regardless of whether the address was originally empty — and Addr()
afterwards returns that allocated address. -/
theorem c1_amended (ocp : Pkg.OpenCode) (evp : Pkg.StartEnv)
    (ocr : Root.OpenCode) (evr : Root.StartEnv) (p q : Nat)
    (hp1 : Pkg.liveHandle ocp = false) (hp2 : evp.portAlloc = some p)
    (hr1 : Root.liveHandle ocr = false) (hr2 : evr.portAlloc = some q) :
    Pkg.Addr (Pkg.start evp ocp).2 = "127.0.0.1:" ++ toString p ∧
    Root.Addr (Root.start evr ocr).2.1 = "127.0.0.1:" ++ toString q := by
  constructor
  · obtain ⟨pa, en, ge, sp, pid, al⟩ := evp
    simp only at hp2
    subst hp2
    cases sp <;> cases al <;> simp [Pkg.start, hp1, Pkg.Addr]
  · obtain ⟨pa, rh, mk, wk, en, ge, sp, pid, al⟩ := evr
    simp only at hr2
    subst hr2
    rcases hfs : ocr.config.ConfigFS with _ | files
    · cases sp <;> simp [Root.start, Root.spawnPhase, hr1, hfs, Root.Addr]
    · cases rh <;> cases mk <;> cases wk <;> cases sp <;>
        simp [Root.start, Root.spawnPhase, hr1, hfs, Root.Addr]

/-- C1 witness for the amended claim: with port 4096 allocated, the
address after Start is "127.0.0.1:4096" in both variants. -/
theorem c1_witness :
    Pkg.Addr (Pkg.start c1Ev (Pkg.New c1Cfg)).2 = "127.0.0.1:" ++ toString 4096 ∧
    Root.Addr (Root.start c3Ev (Root.New c3Cfg)).2.1 = "127.0.0.1:" ++ toString 4096 :=
  c1_amended (Pkg.New c1Cfg) c1Ev (Root.New c3Cfg) c3Ev 4096 4096 rfl rfl rfl rfl

/-- A Start that was not rejected as already running never returns the
already-running error (pkg variant): its failures are the port, spawn and
liveness errors. -/
theorem pkg_start_no_already (ev : Pkg.StartEnv) (oc : Pkg.OpenCode)
    (h : Pkg.liveHandle oc = false) :
    (Pkg.start ev oc).1 ≠ Except.error "opencode is already running" := by
  obtain ⟨pa, en, ge, sp, pid, al⟩ := ev
  cases pa <;> cases sp <;> cases al <;> simp [Pkg.start, h]

/-- A Start that was not rejected as already running never returns the
already-running error (root variant). -/
theorem root_start_no_already (ev : Root.StartEnv) (oc : Root.OpenCode)
    (h : Root.liveHandle oc = false) :
    (Root.start ev oc).1 ≠ Except.error "opencode is already running" := by
  obtain ⟨pa, rh, mk, wk, en, ge, sp, pid, al⟩ := ev
  rcases hfs : oc.config.ConfigFS with _ | files
  · cases pa <;> cases sp <;> simp [Root.start, Root.spawnPhase, h, hfs]
  · cases pa <;> cases rh <;> cases mk <;> cases wk <;> cases sp <;>
      simp [Root.start, Root.spawnPhase, h, hfs]

/-- Start on an instance with a live handle is rejected with the
already-running error and changes nothing (pkg variant). -/
theorem pkg_start_already (ev : Pkg.StartEnv) (oc : Pkg.OpenCode)
    (h : Pkg.liveHandle oc = true) :
    Pkg.start ev oc = (Except.error "opencode is already running", oc) := by
  simp [Pkg.start, h]

/-- After a Start from idle, a live handle is recorded exactly when the
port allocation and the spawn both succeeded — even when the subsequent
liveness confirmation failed (pkg variant). -/
theorem pkg_start_liveHandle (ev : Pkg.StartEnv) (oc : Pkg.OpenCode)
    (h : Pkg.liveHandle oc = false) :
    Pkg.liveHandle (Pkg.start ev oc).2 = (ev.portAlloc.isSome && ev.spawnOk) := by
  obtain ⟨pa, en, ge, sp, pid, al⟩ := ev
  obtain ⟨cfg, cmd⟩ := oc
  simp only [Pkg.liveHandle] at h
  cases pa <;> cases sp <;> cases al <;>
    simp [Pkg.start, Pkg.liveHandle, h]

/-- A root-variant Start from idle that returns an error leaves no live
handle recorded. -/
theorem root_start_err_idle (ev : Root.StartEnv) (oc : Root.OpenCode)
    (h : Root.liveHandle oc = false)
    (herr : (Root.start ev oc).1 ≠ Except.ok ()) :
    Root.liveHandle (Root.start ev oc).2.1 = false := by
  obtain ⟨pa, rh, mk, wk, en, ge, sp, pid, al⟩ := ev
  obtain ⟨⟨addr, cfs, cwd⟩, cmd, cdir⟩ := oc
  simp only [Root.liveHandle] at h
  cases cfs <;> cases pa <;> cases rh <;> cases mk <;> cases wk <;> cases sp <;>
    simp_all [Root.start, Root.spawnPhase, Root.liveHandle]

/-- C2 counterexample: starting from idle, with a successful spawn whose
child has already exited when the liveness probe runs, Start returns an
error yet a live child handle remains recorded, and the immediately
subsequent Start is rejected with the already-running error. -/
theorem c2_counterexample :
    (Pkg.start c2Ev (Pkg.New c2Cfg)).1 = Except.error "opencode process failed to start" ∧
    Pkg.liveHandle (Pkg.start c2Ev (Pkg.New c2Cfg)).2 = true ∧
    (Pkg.start c2Ev (Pkg.start c2Ev (Pkg.New c2Cfg)).2).1
      = Except.error "opencode is already running" := by
  exact ⟨rfl, rfl, rfl⟩

/-- C2 amended: starting from idle, if Start fails before a successful
spawn (port allocation or spawn failure) the instance falls back to idle —
no live child handle remains and the next Start is not rejected as already
running; but in the pkg supervisor, if Start fails at the post-spawn
liveness confirmation, the live child handle remains recorded and an
immediately subsequent Start is rejected as already running.  The root
supervisor falls back to idle on every Start error. -/
theorem c2_amended (ocp : Pkg.OpenCode) (ev ev2 : Pkg.StartEnv)
    (ocr : Root.OpenCode) (evr evr2 : Root.StartEnv)
    (hp : Pkg.liveHandle ocp = false) (hr : Root.liveHandle ocr = false) :
    ((ev.portAlloc = none ∨ ev.spawnOk = false) →
      Pkg.liveHandle (Pkg.start ev ocp).2 = false ∧
      (Pkg.start ev2 (Pkg.start ev ocp).2).1 ≠ Except.error "opencode is already running") ∧
    (∀ port, ev.portAlloc = some port → ev.spawnOk = true →
      ev.childAliveAfterGrace = false →
      (Pkg.start ev ocp).1 = Except.error "opencode process failed to start" ∧
      Pkg.liveHandle (Pkg.start ev ocp).2 = true ∧
      (Pkg.start ev2 (Pkg.start ev ocp).2).1 = Except.error "opencode is already running") ∧
    ((Root.start evr ocr).1 ≠ Except.ok () →
      Root.liveHandle (Root.start evr ocr).2.1 = false ∧
      (Root.start evr2 (Root.start evr ocr).2.1).1
        ≠ Except.error "opencode is already running") := by
  refine ⟨?_, ?_, ?_⟩
  · intro hcase
    have hidle : Pkg.liveHandle (Pkg.start ev ocp).2 = false := by
      have hh := pkg_start_liveHandle ev ocp hp
      rcases hcase with h1 | h1 <;> rw [h1] at hh <;> simpa using hh
    exact ⟨hidle, pkg_start_no_already ev2 _ hidle⟩
  · intro port hport hspawn halive
    have hlive : Pkg.liveHandle (Pkg.start ev ocp).2 = true := by
      have hh := pkg_start_liveHandle ev ocp hp
      rw [hport, hspawn] at hh
      simpa using hh
    refine ⟨?_, hlive, ?_⟩
    · obtain ⟨pa, en, ge, sp, pid, al⟩ := ev
      simp only at hport hspawn halive
      subst hport
      subst hspawn
      subst halive
      simp [Pkg.start, hp]
    · rw [pkg_start_already ev2 _ hlive]
  · intro herr
    have hidle := root_start_err_idle evr ocr hr herr
    exact ⟨hidle, root_start_no_already evr2 _ hidle⟩

/-- C2 witness for the amended claim: a port-allocation failure leaves the
pkg instance idle and the next Start is not rejected as already running;
the liveness-confirmation failure at port 4096 leaves a live handle and
the next Start is rejected. -/
theorem c2_witness :
    (Pkg.liveHandle (Pkg.start c2EvNoPort (Pkg.New c2Cfg)).2 = false ∧
      (Pkg.start c2Ev (Pkg.start c2EvNoPort (Pkg.New c2Cfg)).2).1
        ≠ Except.error "opencode is already running") ∧
    ((Pkg.start c2Ev (Pkg.New c2Cfg)).1 = Except.error "opencode process failed to start" ∧
      Pkg.liveHandle (Pkg.start c2Ev (Pkg.New c2Cfg)).2 = true ∧
      (Pkg.start c2Ev (Pkg.start c2Ev (Pkg.New c2Cfg)).2).1
        = Except.error "opencode is already running") := by
  constructor
  · exact (c2_amended (Pkg.New c2Cfg) c2EvNoPort c2Ev (Root.New c3Cfg) c3Ev c3Ev
      rfl rfl).1 (Or.inl rfl)
  · exact (c2_amended (Pkg.New c2Cfg) c2Ev c2Ev (Root.New c3Cfg) c3Ev c3Ev
      rfl rfl).2.1 4096 rfl rfl rfl

/-- C3 counterexample: the root-variant Start, with a successful spawn
whose child has already crashed (`childAlive = false`), still returns
success — it performs no post-spawn liveness confirmation at all, so an
immediately crashing child is reported as a successful start. -/
theorem c3_counterexample :
    c3Ev.childAlive = false ∧
    (Root.start c3Ev (Root.New c3Cfg)).1 = Except.ok () := by
  exact ⟨rfl, rfl⟩

/-- C3 amended: only the pkg supervisor confirms the child after spawning
(grace delay, then a signal-0 liveness probe): it fails with its
spawn-failed error when the child has already exited and succeeds when the
child is alive.  The root supervisor returns success immediately after a
successful spawn, regardless of whether the child is still alive. -/
theorem c3_amended (ocp : Pkg.OpenCode) (ev : Pkg.StartEnv) (p : Nat)
    (ocr : Root.OpenCode) (evr : Root.StartEnv) (q : Nat)
    (h1 : Pkg.liveHandle ocp = false) (h2 : ev.portAlloc = some p)
    (h3 : ev.spawnOk = true)
    (hr1 : Root.liveHandle ocr = false) (hr2 : ocr.config.ConfigFS = none)
    (hr3 : evr.portAlloc = some q) (hr4 : evr.spawnOk = true) :
    (ev.childAliveAfterGrace = false →
      (Pkg.start ev ocp).1 = Except.error "opencode process failed to start") ∧
    (ev.childAliveAfterGrace = true → (Pkg.start ev ocp).1 = Except.ok ()) ∧
    (Root.start evr ocr).1 = Except.ok () := by
  obtain ⟨pa, en, ge, sp, pid, al⟩ := ev
  obtain ⟨pa2, rh, mk, wk, en2, ge2, sp2, pid2, al2⟩ := evr
  simp only at h2 h3 hr3 hr4
  subst h2
  subst h3
  subst hr3
  subst hr4
  refine ⟨?_, ?_, ?_⟩
  · intro hdead
    simp only at hdead
    subst hdead
    simp [Pkg.start, h1]
  · intro halive
    simp only at halive
    subst halive
    simp [Pkg.start, h1]
  · simp [Root.start, Root.spawnPhase, hr1, hr2]

/-- C3 witness for the amended claim: at port 4096 from idle, the pkg
Start fails when the child has exited during the grace delay, and the root
Start succeeds even though the child has already crashed. -/
theorem c3_witness :
    (Pkg.start c2Ev (Pkg.New c2Cfg)).1 = Except.error "opencode process failed to start" ∧
    (Root.start c3Ev (Root.New c3Cfg)).1 = Except.ok () := by
  have h := c3_amended (Pkg.New c2Cfg) c2Ev 4096 (Root.New c3Cfg) c3Ev 4096
    rfl rfl rfl rfl rfl rfl rfl
  exact ⟨h.1 rfl, h.2.2⟩

/-- C8 helper: expanding the content "key=$\x7bENV_VAR\x7d" against any
ambient environment yields "key=" followed by the value of ENV_VAR. -/
theorem expandEnv_keyvar (g : String → String) :
    expandEnv g "key=$\x7bENV_VAR\x7d" = "key=" ++ g "ENV_VAR" := by
  show String.mk ('k' :: 'e' :: 'y' :: '=' :: ((g "ENV_VAR").toList ++ []))
      = "key=" ++ g "ENV_VAR"
  rcases hv : g "ENV_VAR" with ⟨l⟩
  simp [String.ext_iff]

/-- C8: staging a virtual file set writes the content of each leaf file,
with
embedded environment-variable references expanded against the ambient
process environment, at the corresponding relative path under the staging
root; in particular a file whose content is "key=$\x7bENV_VAR\x7d", when
ENV_VAR=secret is set in the ambient environment, is written as
"key=secret". -/
theorem c8_staging (configDir : String) (getenv : String → String)
    (files : List VFile) (f : VFile)
    (hmem : f ∈ files) (hsecret : getenv "ENV_VAR" = "secret") :
    ({ destPath := configDir ++ "/" ++ f.path,
        content := expandEnv getenv f.content } : StagedFile)
      ∈ stageConfigFS configDir getenv files ∧
    expandEnv getenv "key=$\x7bENV_VAR\x7d" = "key=secret" := by
  constructor
  · exact List.mem_map_of_mem _ hmem
  · rw [expandEnv_keyvar, hsecret]
    rfl

/-- C8 witness: a concrete one-file virtual file set with content
"key=$\x7bENV_VAR\x7d" under an ambient environment where ENV_VAR=secret
stages the file with content "key=secret" at its relative path under the
root. -/
theorem c8_witness :
    ({ destPath := "/tmp/opencode_ab" ++ "/" ++ "cfg/config.json",
        content := expandEnv (fun n => if n = "ENV_VAR" then "secret" else "")
          "key=$\x7bENV_VAR\x7d" } : StagedFile)
      ∈ stageConfigFS "/tmp/opencode_ab" (fun n => if n = "ENV_VAR" then "secret" else "")
          [{ path := "cfg/config.json", content := "key=$\x7bENV_VAR\x7d" }] ∧
    expandEnv (fun n => if n = "ENV_VAR" then "secret" else "")
        "key=$\x7bENV_VAR\x7d" = "key=secret" := by
  exact c8_staging "/tmp/opencode_ab" (fun n => if n = "ENV_VAR" then "secret" else "")
    [{ path := "cfg/config.json", content := "key=$\x7bENV_VAR\x7d" }]
    { path := "cfg/config.json", content := "key=$\x7bENV_VAR\x7d" }
    (by simp) rfl

/-- C10: for ListSessions, CreateSession, SendMessage and StreamEvents,
the directory query parameter equals the configured ConfigDir when it is
non-empty; when ConfigDir is empty the client falls back to the ambient
environment variable OPENCODE_CONFIG_DIR and scopes the request by its
value when that is non-empty; the parameter is omitted only when both are
empty. -/
theorem c10_directory_param (cfg : Pkg.Config) (getenv : String → String)
    (sessionID title text : String) :
    Pkg.dirQuery cfg getenv
      = (if cfg.ConfigDir ≠ "" then [("directory", cfg.ConfigDir)]
         else if getenv "OPENCODE_CONFIG_DIR" ≠ "" then
           [("directory", getenv "OPENCODE_CONFIG_DIR")]
         else []) ∧
    (Pkg.listSessionsRequest cfg getenv).query = Pkg.dirQuery cfg getenv ∧
    (Pkg.createSessionRequest cfg getenv title).query = Pkg.dirQuery cfg getenv ∧
    (Pkg.sendMessageRequest cfg getenv sessionID text).query = Pkg.dirQuery cfg getenv ∧
    (Pkg.streamEventsRequest cfg getenv).query = Pkg.dirQuery cfg getenv := by
  refine ⟨?_, rfl, rfl, rfl, rfl⟩
  by_cases h1 : cfg.ConfigDir = ""
  · by_cases h2 : getenv "OPENCODE_CONFIG_DIR" = ""
    · simp [Pkg.dirQuery, h1, h2]
    · simp [Pkg.dirQuery, h1, h2]
  · simp [Pkg.dirQuery, h1]
